import Mathlib

set_option maxRecDepth 8000

/-!
Shallow embedding of the guitar-pro-mcp document model and operation
surface: the entity graph (Song, Track, MeasureHeader, Measure, Voice,
Beat, Note), the mutating controller operations, the read projections,
the MIDI event projection and the JSON interchange codec, translated
from `src/controllers/guitar_pro/*.py` and `src/utils/*.py`.

Controller state (`self.current_song`) is an `Option Song`.  Python
in-place mutation is modelled by returning the updated song next to the
operation's return value; an uncaught Python exception is modelled by an
`Option`/`Except` failure paired with the state as mutated so far.
Cross-references (measure to header, header to repeat group) use arena
indices into the owning song's lists instead of object pointers.
-/

namespace GP

/-- Python-style list index resolution: a non-negative index must be
below the length, a negative index counts from the end; `none` models an
`IndexError`. -/
def pyResolve (len : Nat) (i : Int) : Option Nat :=
  if 0 ≤ i then
    if i < (len : Int) then some i.toNat else none
  else
    let j : Int := (len : Int) + i
    if 0 ≤ j then some j.toNat else none

/-- Iterate a function `n` times (models a bounded `while` loop). -/
def iterApp {α : Type} (f : α → α) : Nat → α → α
  | 0, a => a
  | n + 1, a => iterApp f n (f a)

/-- One string of a track: `GuitarString(number, value)`. -/
structure GuitarString where
  number : Int
  value : Int
deriving DecidableEq

/-- Note effect flags.  `bend` models the `note.effect.bend` slot that
`add_note_with_effects` assigns `True` to (read back as `isBend` by the
JSON exporter); the remaining booleans mirror the `is*` effect flags the
sources read and write. -/
structure NoteEffect where
  bend : Bool
  isHarmonic : Bool
  isSlide : Bool
  isVibrato : Bool
  isGhostNote : Bool
  isDeadNote : Bool
  isHammerOn : Bool
  isPullOff : Bool
deriving DecidableEq

def default_note_effect : NoteEffect :=
  ⟨false, false, false, false, false, false, false, false⟩

/-- A note.  `isRestType` models `note.type == NoteType.rest`. -/
structure Note where
  string : Int
  value : Int
  velocity : Int
  isTiedNote : Bool
  isRestType : Bool
  effect : NoteEffect
deriving DecidableEq

/-- Beat duration: denominator value, dotted flag, rest flag. -/
structure Duration where
  value : Int
  isDotted : Bool
  isRest : Bool
deriving DecidableEq

/-- A beat: duration, its notes, and an optional text.  Python's
`if beat.text:` truthiness is modelled as `isSome` (the sources store a
text object, never an empty string). -/
structure Beat where
  duration : Duration
  notes : List Note
  text : Option String
deriving DecidableEq

structure Voice where
  beats : List Beat
deriving DecidableEq

/-- A measure: arena index of its header in `song.measureHeaders`
(`none` when the decoder left the header unassigned), and its voices. -/
structure Measure where
  headerIdx : Option Nat
  voices : List Voice
deriving DecidableEq

structure Marker where
  title : String
deriving DecidableEq

/-- A measure header.  `repeatGroupIdx` is the arena index of the owning
repeat group in `song.repeatGroups` (models `header.repeatGroup`). -/
structure MeasureHeader where
  numerator : Int
  denominatorValue : Int
  keySignature : Int
  repeatClose : Int
  repeatAlternative : Int
  isRepeatOpen : Bool
  hasDoubleBar : Bool
  marker : Option Marker
  direction : Option String
  repeatGroupIdx : Option Nat
deriving DecidableEq

/-- Modelled from the spec: the `MeasureHeader()` constructor is part of
the vendored PyGuitarPro library, absent from `src/`; per the spec a
fresh header carries a 4/4 time signature, C-major key and no repeat,
marker or direction data (`repeatClose` is negative meaning "does not
close a repeat"). -/
def default_measure_header : MeasureHeader :=
  { numerator := 4, denominatorValue := 4, keySignature := 0,
    repeatClose := -1, repeatAlternative := 0, isRepeatOpen := false,
    hasDoubleBar := false, marker := none, direction := none,
    repeatGroupIdx := none }

/-- A repeat group: its own member-header list and closed flag. -/
structure RepeatGroup where
  measureHeaders : List MeasureHeader
  isClosed : Bool
deriving DecidableEq

/-- MIDI channel data of a track. -/
structure Channel where
  instrument : Int
  volume : Int
  balance : Int
  chorus : Int
  reverb : Int
  phaser : Int
  tremolo : Int
deriving DecidableEq

structure Track where
  name : String
  strings : List GuitarString
  channel : Channel
  isPercussionTrack : Bool
  measures : List Measure
deriving DecidableEq

/-- The song: metadata fields read by the sources, global tempo, the
measure headers, the tracks and the repeat groups. -/
structure Song where
  title : String
  artist : String
  album : String
  author : String
  copyright : String
  transcriber : String
  instructions : String
  comments : String
  subtitle : String
  notice : String
  tempo : Int
  measureHeaders : List MeasureHeader
  tracks : List Track
  repeatGroups : List RepeatGroup
deriving DecidableEq

def empty_voice : Voice := ⟨[]⟩

/-- Modelled from the spec: the default channel of a fresh `Track()`
(vendored PyGuitarPro, absent from `src/`); concrete defaults are
irrelevant to the claims, only the fields the sources overwrite matter. -/
def default_channel : Channel := ⟨0, 100, 0, 0, 0, 0, 0⟩

def default_track : Track :=
  { name := "", strings := [], channel := default_channel,
    isPercussionTrack := false, measures := [] }

def default_measure : Measure := ⟨none, []⟩

/-- Modelled from the spec: `Song()` (vendored PyGuitarPro, absent from
`src/`) default-constructs a song with the given title, empty metadata,
tempo 120 and no headers, tracks or repeat groups. -/
def blank_song (title : String) : Song :=
  { title := title, artist := "", album := "", author := "",
    copyright := "", transcriber := "", instructions := "",
    comments := "", subtitle := "", notice := "", tempo := 120,
    measureHeaders := [], tracks := [], repeatGroups := [] }

/-- Modelled from the spec: `Track(song)` (vendored PyGuitarPro, absent
from `src/`); per spec section 4.1 entity constructors enforce the
header/measure invariant at creation time, so the new track gets one
default measure per existing measure header, each linked to the header
at its index; the strings list starts empty (the caller `add_track`
appends the standard tuning itself). -/
def gp_track (s : Song) : Track :=
  { name := "", strings := [], channel := default_channel,
    isPercussionTrack := false,
    measures := (List.range s.measureHeaders.length).map
      (fun k => { headerIdx := some k, voices := [empty_voice] }) }

/-- `TrackOperationsController.add_track` on an already-loaded song:
new track, name set, instrument 24, standard tuning appended, track
appended; returns the new track's index. -/
def add_trackS (s : Song) (name : String) : Song × Int :=
  let t0 := gp_track s
  let t := { t0 with
    name := name,
    channel := { t0.channel with instrument := 24 },
    strings := t0.strings ++
      [⟨1, 64⟩, ⟨2, 59⟩, ⟨3, 55⟩, ⟨4, 50⟩, ⟨5, 45⟩, ⟨6, 40⟩] }
  let s' := { s with tracks := s.tracks ++ [t] }
  (s', (s'.tracks.length : Int) - 1)

/-- `MeasureOperationsController.add_measure_header` on a loaded song:
append a fresh 4/4, C-major header, then append to every track a
measure linked to it carrying one default voice; returns the header's
index. -/
def add_measure_headerS (s : Song) : Song × Int :=
  let header := { default_measure_header with
    numerator := 4, denominatorValue := 4, keySignature := 0 }
  let hIdx := s.measureHeaders.length
  let s1 := { s with measureHeaders := s.measureHeaders ++ [header] }
  let s2 := { s1 with tracks := s1.tracks.map (fun t =>
    { t with measures := t.measures ++ [⟨some hIdx, [empty_voice]⟩] }) }
  (s2, (s2.measureHeaders.length : Int) - 1)

/-- `SongOperationsController.create_new_song`: fresh song, default
track "Guitar", one measure header, tempo 120. -/
def create_new_song (title artist : String) : Song :=
  let s0 := { blank_song title with artist := artist }
  let s1 := (add_trackS s0 "Guitar").1
  let s2 := (add_measure_headerS s1).1
  { s2 with tempo := 120 }

/-- Controller-level `add_track`: creates a minimal `Song()` titled
"New Song" when none is loaded. -/
def add_track (st : Option Song) (name : String) : Option Song × Int :=
  let s := match st with
    | none => blank_song "New Song"
    | some s => s
  let r := add_trackS s name
  (some r.1, r.2)

/-- Controller-level `add_measure_header`: runs `create_new_song` first
when no song is loaded. -/
def add_measure_header (st : Option Song) : Option Song × Int :=
  let s := match st with
    | none => create_new_song "New Song" ""
    | some s => s
  let r := add_measure_headerS s
  (some r.1, r.2)

/-- The `while measure_index >= len(measureHeaders)` growth loop shared
by `set_time_signature`, `set_key_signature` and `set_tempo`: each
iteration appends one header (and one measure to every track). -/
def ensure_headers (s : Song) (mIdx : Int) : Song :=
  iterApp (fun s => (add_measure_headerS s).1)
    (mIdx + 1 - (s.measureHeaders.length : Int)).toNat s

/-- `set_time_signature`: `False` when no song is loaded; otherwise grow
the header list, fetch `measureHeaders[measure_index]` (Python indexing;
an `IndexError` propagates, modelled as result `none`), and set the
fetched header's time signature in place. -/
def set_time_signature (st : Option Song) (mIdx numerator denominator : Int) :
    Option Song × Option Bool :=
  match st with
  | none => (none, some false)
  | some s =>
    let s1 := ensure_headers s mIdx
    match pyResolve s1.measureHeaders.length mIdx with
    | none => (some s1, none)
    | some k =>
      let h := s1.measureHeaders.getD k default_measure_header
      let h' := { h with numerator := numerator, denominatorValue := denominator }
      (some { s1 with measureHeaders := s1.measureHeaders.set k h' }, some true)

/-- `set_key_signature`: same shape; `KeySignature(key)` is vendored
code absent from `src/`, modelled from the spec as storing the supplied
key value on the header. -/
def set_key_signature (st : Option Song) (mIdx key : Int) :
    Option Song × Option Bool :=
  match st with
  | none => (none, some false)
  | some s =>
    let s1 := ensure_headers s mIdx
    match pyResolve s1.measureHeaders.length mIdx with
    | none => (some s1, none)
    | some k =>
      let h := s1.measureHeaders.getD k default_measure_header
      let h' := { h with keySignature := key }
      (some { s1 with measureHeaders := s1.measureHeaders.set k h' }, some true)

/-- `set_tempo`: grows the header list, fetches
`measureHeaders[measure_index]` (the fetched header is unused; a
negative out-of-range index raises `IndexError`, modelled as result
`none`), then sets the song-global tempo and returns `True`. -/
def set_tempo (st : Option Song) (mIdx tempo : Int) :
    Option Song × Option Bool :=
  match st with
  | none => (none, some false)
  | some s =>
    let s1 := ensure_headers s mIdx
    match pyResolve s1.measureHeaders.length mIdx with
    | none => (some s1, none)
    | some _ => (some { s1 with tempo := tempo }, some true)

/-- Write a voice list into measure `mi` of track `ti` (helper for the
in-place mutations of `add_note` / `add_note_with_effects`; it is only
applied at indices that exist, where `List.set` performs the in-place
write, and is the identity elsewhere). -/
def set_measure_voices (s : Song) (ti mi : Nat) (vs : List Voice) : Song :=
  let t := s.tracks.getD ti default_track
  let m := t.measures.getD mi default_measure
  let t' := { t with measures := t.measures.set mi { m with voices := vs } }
  { s with tracks := s.tracks.set ti t' }

/-- Modelled from the spec: `Note(beat)` (vendored PyGuitarPro, absent
from `src/`) default-constructs a non-tied, non-rest note with default
velocity 95 and no effects; `add_note` then assigns `value` and
`string`. -/
def mk_note (string fret : Int) : Note :=
  { string := string, value := fret, velocity := 95,
    isTiedNote := false, isRestType := false, effect := default_note_effect }

/-- A fresh beat as built by `add_note`: `Duration()` with its `value`
overwritten, empty note list, no text. -/
def new_beat (duration : Int) : Beat :=
  ⟨⟨duration, false, false⟩, [], none⟩

/-- `NoteOperationsController.add_note`.  Bounds failures on the track
or measure index return `False` without mutation; voice growth and the
single-beat append happen before the `voice.beats[beat_index]` fetch, so
an `IndexError` there is caught by the `except` and returns `False` with
those mutations retained. -/
def add_note (st : Option Song)
    (trackIdx measureIdx string fret duration voiceIdx beatIdx : Int) :
    Option Song × Bool :=
  match st with
  | none => (none, false)
  | some s =>
    if trackIdx < 0 ∨ (s.tracks.length : Int) ≤ trackIdx then (some s, false)
    else
      let ti := trackIdx.toNat
      let track := s.tracks.getD ti default_track
      if measureIdx < 0 ∨ (track.measures.length : Int) ≤ measureIdx then
        (some s, false)
      else
        let mi := measureIdx.toNat
        let measure := track.measures.getD mi default_measure
        let voices1 := measure.voices ++
          List.replicate (voiceIdx + 1 - (measure.voices.length : Int)).toNat
            empty_voice
        let sGrown := set_measure_voices s ti mi voices1
        match pyResolve voices1.length voiceIdx with
        | none => (some sGrown, false)
        | some vi =>
          let voice := voices1.getD vi empty_voice
          let beats1 :=
            if (voice.beats.length : Int) ≤ beatIdx then
              voice.beats ++ [new_beat duration]
            else voice.beats
          let sBeat := set_measure_voices s ti mi
            (voices1.set vi { voice with beats := beats1 })
          match pyResolve beats1.length beatIdx with
          | none => (some sBeat, false)
          | some bi =>
            let beat := beats1.getD bi (new_beat duration)
            let beats2 := beats1.set bi
              { beat with notes := beat.notes ++ [mk_note string fret] }
            (some (set_measure_voices s ti mi
              (voices1.set vi { voice with beats := beats2 })), true)

/-- `NoteOperationsController.add_note_with_effects`: identical control
flow to `add_note`, the created note additionally carries the requested
effect flags. -/
def add_note_with_effects (st : Option Song)
    (trackIdx measureIdx string fret duration voiceIdx beatIdx : Int)
    (is_bend is_harmonic is_slide is_vibrato is_ghost is_dead
      is_hammer_on is_pull_off : Bool) :
    Option Song × Bool :=
  match st with
  | none => (none, false)
  | some s =>
    if trackIdx < 0 ∨ (s.tracks.length : Int) ≤ trackIdx then (some s, false)
    else
      let ti := trackIdx.toNat
      let track := s.tracks.getD ti default_track
      if measureIdx < 0 ∨ (track.measures.length : Int) ≤ measureIdx then
        (some s, false)
      else
        let mi := measureIdx.toNat
        let measure := track.measures.getD mi default_measure
        let voices1 := measure.voices ++
          List.replicate (voiceIdx + 1 - (measure.voices.length : Int)).toNat
            empty_voice
        let sGrown := set_measure_voices s ti mi voices1
        match pyResolve voices1.length voiceIdx with
        | none => (some sGrown, false)
        | some vi =>
          let voice := voices1.getD vi empty_voice
          let beats1 :=
            if (voice.beats.length : Int) ≤ beatIdx then
              voice.beats ++ [new_beat duration]
            else voice.beats
          let sBeat := set_measure_voices s ti mi
            (voices1.set vi { voice with beats := beats1 })
          match pyResolve beats1.length beatIdx with
          | none => (some sBeat, false)
          | some bi =>
            let note := { mk_note string fret with effect :=
              ⟨is_bend, is_harmonic, is_slide, is_vibrato, is_ghost,
                is_dead, is_hammer_on, is_pull_off⟩ }
            let beat := beats1.getD bi (new_beat duration)
            let beats2 := beats1.set bi
              { beat with notes := beat.notes ++ [note] }
            (some (set_measure_voices s ti mi
              (voices1.set vi { voice with beats := beats2 })), true)

/-- The sequential property updates of `set_track_properties`: name
first, then instrument, volume and pan, each validated just before its
own assignment; the returned track keeps every assignment made before a
validation failure. -/
def apply_track_props (t : Track) (name : Option String)
    (instrument volume pan : Option Int) : Track × Bool :=
  let t1 := match name with
    | some nm => { t with name := nm }
    | none => t
  let insStep : Track × Bool := match instrument with
    | some ins =>
      if 0 ≤ ins ∧ ins ≤ 127 then
        ({ t1 with channel := { t1.channel with instrument := ins } }, true)
      else (t1, false)
    | none => (t1, true)
  if insStep.2 = false then (insStep.1, false)
  else
    let t2 := insStep.1
    let volStep : Track × Bool := match volume with
      | some v =>
        if 0 ≤ v ∧ v ≤ 100 then
          ({ t2 with channel := { t2.channel with volume := v } }, true)
        else (t2, false)
      | none => (t2, true)
    if volStep.2 = false then (volStep.1, false)
    else
      let t3 := volStep.1
      match pan with
      | some p =>
        if -64 ≤ p ∧ p ≤ 63 then
          ({ t3 with channel := { t3.channel with balance := p } }, true)
        else (t3, false)
      | none => (t3, true)

/-- `TrackOperationsController.set_track_properties`. -/
def set_track_properties (st : Option Song) (trackIdx : Int)
    (name : Option String) (instrument volume pan : Option Int) :
    Option Song × Bool :=
  match st with
  | none => (none, false)
  | some s =>
    if trackIdx < 0 ∨ (s.tracks.length : Int) ≤ trackIdx then (some s, false)
    else
      let ti := trackIdx.toNat
      let t := s.tracks.getD ti default_track
      let r := apply_track_props t name instrument volume pan
      (some { s with tracks := s.tracks.set ti r.1 }, r.2)

/-- First string whose `number` equals the note's string number. -/
def find_string (strings : List GuitarString) (num : Int) : Option GuitarString :=
  strings.find? (fun g => g.number == num)

/-- The per-note body of `transpose_track`: tied notes are skipped, a
missing string is skipped, otherwise the new fret
`(string.value + note.value + semitones) - string.value` is stored only
when it is non-negative. -/
def transpose_note (strings : List GuitarString) (semitones : Int)
    (note : Note) : Note :=
  if note.isTiedNote then note
  else
    match find_string strings note.string with
    | none => note
    | some g =>
      let current_pitch := g.value + note.value
      let new_pitch := current_pitch + semitones
      let new_fret := new_pitch - g.value
      if 0 ≤ new_fret then { note with value := new_fret } else note

/-- `transpose_track` applied to the selected track: every note of
every beat of every voice of every measure goes through
`transpose_note`. -/
def transpose_trackS (t : Track) (semitones : Int) : Track :=
  { t with measures := t.measures.map (fun m =>
    { m with voices := m.voices.map (fun v =>
      { v with beats := v.beats.map (fun b =>
        { b with notes := b.notes.map (transpose_note t.strings semitones) }) }) }) }

/-- `TrackOperationsController.transpose_track`. -/
def transpose_track (st : Option Song) (trackIdx semitones : Int) :
    Option Song × Bool :=
  match st with
  | none => (none, false)
  | some s =>
    if trackIdx < 0 ∨ (s.tracks.length : Int) ≤ trackIdx then (some s, false)
    else
      let ti := trackIdx.toNat
      let t := s.tracks.getD ti default_track
      (some { s with tracks := s.tracks.set ti (transpose_trackS t semitones) },
        true)

/-- One entry of `get_tracks`. -/
structure TrackInfo where
  name : String
  index : Nat
  strings : Nat
  instrument : Int
  is_percussion : Bool
deriving DecidableEq

/-- `TrackOperationsController.get_tracks`: empty list when no song is
loaded, otherwise one entry per non-percussion track, indexed by the
track's position among all tracks. -/
def get_tracks (st : Option Song) : List TrackInfo :=
  match st with
  | none => []
  | some s =>
    (s.tracks.enum.filter (fun p => !p.2.isPercussionTrack)).map (fun p =>
      { name := p.2.name, index := p.1, strings := p.2.strings.length,
        instrument := p.2.channel.instrument,
        is_percussion := p.2.isPercussionTrack })

/-- One entry of `get_track_notes`. -/
structure NoteInfo where
  measure : Nat
  voice : Nat
  beat : Nat
  string : Int
  value : Int
  duration : Int
  is_dotted : Bool
  is_rest : Bool
  has_tie : Bool
deriving DecidableEq

/-- `TrackOperationsController.get_track_notes`: empty list when no
song is loaded or the index is out of range, otherwise the notes of the
track flattened in document order. -/
def get_track_notes (st : Option Song) (trackIdx : Int) : List NoteInfo :=
  match st with
  | none => []
  | some s =>
    if trackIdx < 0 ∨ (s.tracks.length : Int) ≤ trackIdx then []
    else
      let track := s.tracks.getD trackIdx.toNat default_track
      track.measures.enum.flatMap (fun mp =>
        mp.2.voices.enum.flatMap (fun vp =>
          vp.2.beats.enum.flatMap (fun bp =>
            bp.2.notes.map (fun note =>
              { measure := mp.1, voice := vp.1, beat := bp.1,
                string := note.string, value := note.value,
                duration := bp.2.duration.value,
                is_dotted := bp.2.duration.isDotted,
                is_rest := bp.2.duration.isRest,
                has_tie := note.isTiedNote }))))

/-- The mapping returned by `get_song_info` on a loaded song. -/
structure SongInfo where
  title : String
  artist : String
  album : String
  copyright : String
  subtitle : String
  notice : String
  track_count : Nat
deriving DecidableEq

/-- `SongOperationsController.get_song_info`: `_ensure_song_loaded`
raises `ValueError("No song is currently loaded")` when no song is
loaded (modelled as `Except.error`); otherwise the metadata mapping. -/
def get_song_info (st : Option Song) : Except String SongInfo :=
  match st with
  | none => Except.error "No song is currently loaded"
  | some s =>
    Except.ok
      { title := s.title, artist := s.artist, album := s.album,
        copyright := s.copyright, subtitle := s.subtitle,
        notice := s.notice, track_count := s.tracks.length }

/-- Per-track block of `get_song_statistics`. -/
structure TrackStats where
  name : String
  string_count : Nat
  measure_count : Nat
  note_count : Nat
  beat_count : Nat
deriving DecidableEq

structure SongStats where
  title : String
  track_count : Nat
  measure_count : Nat
  tracks : List TrackStats
  total_notes : Nat
  total_beats : Nat
deriving DecidableEq

/-- `get_song_statistics` returns either the `{"error": ...}` mapping
or the statistics mapping. -/
inductive StatsResult where
  | err (msg : String)
  | ok (stats : SongStats)
deriving DecidableEq

def track_beat_count (t : Track) : Nat :=
  (t.measures.map (fun m =>
    (m.voices.map (fun v => v.beats.length)).sum)).sum

def track_note_count (t : Track) : Nat :=
  (t.measures.map (fun m =>
    (m.voices.map (fun v =>
      (v.beats.map (fun b => b.notes.length)).sum)).sum)).sum

/-- `SongOperationsController.get_song_statistics`. -/
def get_song_statistics (st : Option Song) : StatsResult :=
  match st with
  | none => StatsResult.err "No song loaded"
  | some s =>
    StatsResult.ok
      { title := s.title, track_count := s.tracks.length,
        measure_count := s.measureHeaders.length,
        tracks := s.tracks.map (fun t =>
          { name := t.name, string_count := t.strings.length,
            measure_count := t.measures.length,
            note_count := track_note_count t,
            beat_count := track_beat_count t }),
        total_notes := (s.tracks.map track_note_count).sum,
        total_beats := (s.tracks.map track_beat_count).sum }

/-- Does `hay` start with `sub`? -/
def chars_start_with : List Char → List Char → Bool
  | _, [] => true
  | [], _ :: _ => false
  | c :: cs, d :: ds => c == d && chars_start_with cs ds

/-- Does `hay` contain `sub` as a contiguous run (Python `sub in hay`)? -/
def chars_contain (sub : List Char) : List Char → Bool
  | [] => sub.isEmpty
  | hay@(_ :: rest) => chars_start_with hay sub || chars_contain sub rest

def str_contains (hay sub : String) : Bool :=
  chars_contain sub.data hay.data

/-- The section-marker keywords of `get_sections`. -/
def section_keywords : List String :=
  ["intro", "verse", "chorus", "bridge", "solo", "outro", "coda"]

def text_has_section_keyword (text : String) : Bool :=
  section_keywords.any (fun kw => str_contains text.toLower kw)

/-- First beat text in measure `i` (scanning tracks, voices, beats in
order) that contains a section keyword. -/
def first_keyword_beat_text (s : Song) (i : Nat) : Option String :=
  s.tracks.findSome? (fun t =>
    match t.measures[i]? with
    | none => none
    | some m =>
      m.voices.findSome? (fun v =>
        v.beats.findSome? (fun b =>
          match b.text with
          | some txt =>
            if text_has_section_keyword txt then some txt else none
          | none => none)))

def header_section_text (h : MeasureHeader) : Option String :=
  match h.marker with
  | some mk => if text_has_section_keyword mk.title then some mk.title else none
  | none => none

/-- Section text detected at measure `i`: beat texts take priority over
the header marker. -/
def section_text_at (s : Song) (i : Nat) (h : MeasureHeader) : Option String :=
  match first_keyword_beat_text s i with
  | some t => some t
  | none => header_section_text h

structure SectionInfo where
  name : String
  start_measure : Nat
  end_measure : Nat
deriving DecidableEq

/-- `SongOperationsController.get_sections` on a loaded song: fold over
the headers tracking the current section, starting a new section when
there is a gap and extending it otherwise. -/
def get_sections (s : Song) : List SectionInfo :=
  let step := fun (acc : List SectionInfo × Option SectionInfo)
      (p : Nat × MeasureHeader) =>
    match section_text_at s p.1 p.2 with
    | none => acc
    | some txt =>
      match acc.2 with
      | none => (acc.1, some ⟨txt, p.1, p.1⟩)
      | some cur =>
        if (cur.end_measure : Int) < (p.1 : Int) - 1 then
          (acc.1 ++ [cur], some ⟨txt, p.1, p.1⟩)
        else
          (acc.1, some { cur with end_measure := p.1 })
  let r := s.measureHeaders.enum.foldl step ([], none)
  match r.2 with
  | none => r.1
  | some cur => r.1 ++ [cur]

structure RepeatInfo where
  type : String
  repeat_count : Int
  endings : List Int
  measures : List Nat
  is_closed : Bool
deriving DecidableEq

/-- `SongOperationsController.get_repeat_groups` on a loaded song.  The
Python `header.repeatGroup == group` comparison is modelled by the
arena index stored on the header. -/
def get_repeat_groups (s : Song) : List RepeatInfo :=
  s.repeatGroups.enum.map (fun p =>
    let measures := (s.measureHeaders.enum.filter
      (fun q => q.2.repeatGroupIdx == some p.1)).map (fun q => q.1)
    let repeat_count := match p.2.measureHeaders.find?
        (fun h => decide (0 < h.repeatClose)) with
      | some h => h.repeatClose
      | none => 0
    { type := "normal", repeat_count := repeat_count,
      endings := ((p.2.measureHeaders.filter
        (fun h => decide (0 < h.repeatAlternative))).map
          (fun h => h.repeatAlternative)),
      measures := measures, is_closed := p.2.isClosed })

/-- One marker entry of `get_song_structure`; `text` and `beat` are
absent from some marker kinds. -/
structure MarkerInfo where
  type : String
  text : Option String
  measure : Nat
  beat : Option Nat
deriving DecidableEq

/-- `get_song_structure` returns `{}` (modelled `empty`) when no song
is loaded, otherwise the sections / repeat groups / markers mapping. -/
inductive StructureResult where
  | empty
  | mk (sections : List SectionInfo) (repeat_groups : List RepeatInfo)
      (markers : List MarkerInfo)
deriving DecidableEq

/-- `measure.header` dereference; total with a default so the states the
sources can build (where `headerIdx` is always a valid arena index) are
modelled exactly. -/
def header_of (s : Song) (m : Measure) : MeasureHeader :=
  match m.headerIdx with
  | some i => s.measureHeaders.getD i default_measure_header
  | none => default_measure_header

/-- Markers contributed by one measure in `get_song_structure`: header
marker, double bar, beat texts, and one direction entry per beat whose
measure header carries a direction. -/
def measure_markers (s : Song) (mi : Nat) (m : Measure) : List MarkerInfo :=
  let h := header_of s m
  (match h.marker with
    | some mk => [⟨"marker", some mk.title, mi, none⟩]
    | none => []) ++
  (if h.hasDoubleBar then [⟨"double_bar", none, mi, none⟩] else []) ++
  (m.voices.flatMap (fun v =>
    v.beats.enum.flatMap (fun bp =>
      (match bp.2.text with
        | some txt => [⟨"text", some txt, mi, some bp.1⟩]
        | none => []) ++
      (match h.direction with
        | some d => [⟨"direction", some d, mi, none⟩]
        | none => []))))

/-- `SongOperationsController.get_song_structure`. -/
def get_song_structure (st : Option Song) : StructureResult :=
  match st with
  | none => StructureResult.empty
  | some s =>
    StructureResult.mk (get_sections s) (get_repeat_groups s)
      (s.tracks.flatMap (fun t =>
        t.measures.enum.flatMap (fun mp => measure_markers s mp.1 mp.2)))

/-- One mido message with its delta time in ticks. -/
inductive MidiMsg where
  | track_name (name : String) (time : Int)
  | program_change (program : Int) (time : Int)
  | note_on (note : Int) (velocity : Int) (time : Int)
  | note_off (note : Int) (velocity : Int) (time : Int)
deriving DecidableEq

/-- `tick_duration` of a beat in `convert_to_midi`:
`int(4 * 480 / duration.value)`, times 1.5 (truncated) when dotted; the
operands are non-negative in every reachable state, so truncating
division over `Int` models Python's `int(...)` exactly. -/
def beat_tick_duration (b : Beat) : Int :=
  let d := (4 * 480) / b.duration.value
  if b.duration.isDotted then (3 * d) / 2 else d

/-- The message pair `convert_to_midi` emits for one note: tuning
lookup defaulting to 0, pitch = tuning + fret, velocity
`min(64 + note.velocity, 127)`; `note_on` at delta 0, `note_off` at
delta `tick_duration`. -/
def midi_note_msgs (strings : List GuitarString) (tickDur : Int) (n : Note) :
    List MidiMsg :=
  let tuning := match find_string strings n.string with
    | some g => g.value
    | none => 0
  let pitch := tuning + n.value
  let vel := if 64 + n.velocity > 127 then 127 else 64 + n.velocity
  [MidiMsg.note_on pitch vel 0, MidiMsg.note_off pitch 0 tickDur]

/-- The message list `convert_to_midi` builds for one track: name and
program meta-messages, then for every beat in document order either
nothing (a beat with no notes is skipped outright) or the per-note
on/off pairs. -/
def midi_track_msgs (t : Track) : List MidiMsg :=
  [MidiMsg.track_name t.name 0, MidiMsg.program_change t.channel.instrument 0] ++
  t.measures.flatMap (fun m =>
    m.voices.flatMap (fun v =>
      v.beats.flatMap (fun b =>
        if b.notes.isEmpty then []
        else b.notes.flatMap (midi_note_msgs t.strings (beat_tick_duration b)))))

/-- `convert_to_midi` (`src/utils/midi_export.py`): one message list per
non-percussion track; the final file save is boundary I/O and out of
scope. -/
def convert_to_midi (s : Song) : List (List MidiMsg) :=
  (s.tracks.filter (fun t => !t.isPercussionTrack)).map midi_track_msgs

def msg_time : MidiMsg → Int
  | MidiMsg.track_name _ t => t
  | MidiMsg.program_change _ t => t
  | MidiMsg.note_on _ _ t => t
  | MidiMsg.note_off _ _ t => t

def is_note_on : MidiMsg → Bool
  | MidiMsg.note_on _ _ _ => true
  | _ => false

/-- Absolute onset tick of every `note_on` in a delta-timed message
list (prefix sums of the deltas). -/
def note_on_onsets (msgs : List MidiMsg) : List Int :=
  (msgs.foldl (fun (acc : Int × List Int) msg =>
    let tAbs := acc.1 + msg_time msg
    (tAbs, if is_note_on msg then acc.2 ++ [tAbs] else acc.2)) (0, [])).2

/-- A JSON-like value tree (the interchange format). -/
inductive JValue where
  | jnull
  | jbool (b : Bool)
  | jint (n : Int)
  | jstr (s : String)
  | jarr (xs : List JValue)
  | jobj (fields : List (String × JValue))

/-- Left-to-right effectful map over `Except`, stopping at the first
error (models a Python `for` loop whose body can raise). -/
def exceptMapList {α β : Type} (f : α → Except String β) :
    List α → Except String (List β)
  | [] => Except.ok []
  | x :: xs =>
    match f x with
    | Except.error e => Except.error e
    | Except.ok y =>
      match exceptMapList f xs with
      | Except.error e => Except.error e
      | Except.ok ys => Except.ok (y :: ys)

/-- The note-serialization step of `song_to_json`: the dict literal
evaluates `note.type == gp.models.NoteType.rest`, but `json_export.py`
never binds the name `gp`, so every note raises `NameError` before any
note dict is produced. -/
def note_to_json (_ : Note) : Except String JValue :=
  Except.error "NameError: name 'gp' is not defined"

def beat_to_json (p : Nat × Beat) : Except String JValue :=
  match exceptMapList note_to_json p.2.notes with
  | Except.error e => Except.error e
  | Except.ok notes =>
    Except.ok (JValue.jobj
      [("index", JValue.jint p.1),
       ("duration", JValue.jobj
         [("value", JValue.jint p.2.duration.value),
          ("is_dotted", JValue.jbool p.2.duration.isDotted),
          ("is_rest", JValue.jbool p.2.duration.isRest)]),
       ("notes", JValue.jarr notes)])

def voice_to_json (p : Nat × Voice) : Except String JValue :=
  match exceptMapList beat_to_json p.2.beats.enum with
  | Except.error e => Except.error e
  | Except.ok beats =>
    Except.ok (JValue.jobj
      [("index", JValue.jint p.1), ("beats", JValue.jarr beats)])

def measure_to_json (p : Nat × Measure) : Except String JValue :=
  match exceptMapList voice_to_json p.2.voices.enum with
  | Except.error e => Except.error e
  | Except.ok voices =>
    Except.ok (JValue.jobj
      [("index", JValue.jint p.1), ("voices", JValue.jarr voices)])

def track_to_json (p : Nat × Track) : Except String JValue :=
  match exceptMapList measure_to_json p.2.measures.enum with
  | Except.error e => Except.error e
  | Except.ok measures =>
    Except.ok (JValue.jobj
      [("name", JValue.jstr p.2.name),
       ("index", JValue.jint p.1),
       ("is_percussion", JValue.jbool p.2.isPercussionTrack),
       ("channel", JValue.jobj
         [("instrument", JValue.jint p.2.channel.instrument),
          ("volume", JValue.jint p.2.channel.volume),
          ("balance", JValue.jint p.2.channel.balance),
          ("chorus", JValue.jint p.2.channel.chorus),
          ("reverb", JValue.jint p.2.channel.reverb),
          ("phaser", JValue.jint p.2.channel.phaser),
          ("tremolo", JValue.jint p.2.channel.tremolo)]),
       ("strings", JValue.jarr (p.2.strings.map (fun g =>
         JValue.jobj [("number", JValue.jint g.number),
                      ("value", JValue.jint g.value)]))),
       ("measures", JValue.jarr measures)])

/-- `song_to_json` (`src/utils/json_export.py`): metadata block, then
the track tree; any note reached during serialization raises the
`NameError` modelled in `note_to_json`. -/
def song_to_json (s : Song) : Except String JValue :=
  match exceptMapList track_to_json s.tracks.enum with
  | Except.error e => Except.error e
  | Except.ok tracks =>
    Except.ok (JValue.jobj
      [("metadata", JValue.jobj
        [("title", JValue.jstr s.title),
         ("artist", JValue.jstr s.artist),
         ("album", JValue.jstr s.album),
         ("author", JValue.jstr s.author),
         ("copyright", JValue.jstr s.copyright),
         ("transcriber", JValue.jstr s.transcriber),
         ("instructions", JValue.jstr s.instructions),
         ("comments", JValue.jstr s.comments),
         ("tempo", JValue.jint s.tempo)]),
       ("tracks", JValue.jarr tracks)])

/-- `export_to_json`: serialize then write; the `except` around the body
turns the serialization failure into `False`, and the file write (plain
boundary I/O, out of scope) succeeds. -/
def export_to_json (s : Song) : Bool :=
  match song_to_json s with
  | Except.error _ => false
  | Except.ok _ => true

/-- Does the song contain at least one note in any beat? -/
def song_has_note (s : Song) : Bool :=
  s.tracks.any (fun t => t.measures.any (fun m => m.voices.any (fun v =>
    v.beats.any (fun b => !b.notes.isEmpty))))

/-- Effect flags of one note in the interchange tree (`none` models the
absent/empty `effect` dict). -/
structure JEffect where
  bend : Bool
  harmonic : Bool
  ghost : Bool
  slide : Bool
  vibrato : Bool
deriving DecidableEq

structure JNote where
  string : Int
  value : Int
  velocity : Int
  is_tied : Bool
  is_rest : Bool
  effect : Option JEffect
deriving DecidableEq

structure JDuration where
  value : Int
  is_dotted : Bool
  is_rest : Bool
deriving DecidableEq

structure JBeat where
  duration : JDuration
  notes : List JNote
deriving DecidableEq

structure JVoice where
  beats : List JBeat
deriving DecidableEq

/-- One measure node of the interchange tree; `index` is the stored
`"index"` field the decoder uses to look up the shared header. -/
structure JMeasure where
  index : Int
  voices : List JVoice
deriving DecidableEq

structure JChannel where
  instrument : Int
  volume : Int
  balance : Int
  chorus : Int
  reverb : Int
  phaser : Int
  tremolo : Int
deriving DecidableEq

structure JString where
  number : Int
  value : Int
deriving DecidableEq

structure JTrack where
  name : String
  is_percussion : Bool
  channel : JChannel
  strings : List JString
  measures : List JMeasure
deriving DecidableEq

structure JMeta where
  title : String
  artist : String
  album : String
  author : String
  copyright : String
  transcriber : String
  instructions : String
  comments : String
  tempo : Int
deriving DecidableEq

/-- The interchange tree consumed by `json_to_song`. -/
structure JSong where
  metadata : JMeta
  tracks : List JTrack
deriving DecidableEq

def decode_note (n : JNote) : Note :=
  { string := n.string, value := n.value, velocity := n.velocity,
    isTiedNote := n.is_tied, isRestType := n.is_rest,
    effect := match n.effect with
      | none => default_note_effect
      | some e => ⟨e.bend, e.harmonic, e.slide, e.vibrato, e.ghost,
          false, false, false⟩ }

def decode_beat (b : JBeat) : Beat :=
  ⟨⟨b.duration.value, b.duration.is_dotted, b.duration.is_rest⟩,
    b.notes.map decode_note, none⟩

def decode_voice (v : JVoice) : Voice :=
  ⟨v.beats.map decode_beat⟩

/-- Header handling of one decoded measure (`json_to_song` lines
200-212): while the decoded-track list is still empty a fresh header is
appended and linked; afterwards, when the stored index is below the
header count the measure is linked to the existing header at that index
(Python indexing: a negative stored index that resolves out of range is
an `IndexError`, failing the whole decode), and otherwise the measure
is left without a header. -/
def decode_measure (tracksEmpty : Bool) (headers : List MeasureHeader)
    (m : JMeasure) : Option (List MeasureHeader × Measure) :=
  let voices := m.voices.map decode_voice
  if tracksEmpty then
    some (headers ++ [default_measure_header],
      { headerIdx := some headers.length, voices := voices })
  else
    if m.index < (headers.length : Int) then
      match pyResolve headers.length m.index with
      | none => none
      | some k => some (headers, { headerIdx := some k, voices := voices })
    else
      some (headers, { headerIdx := none, voices := voices })

def decode_measures (tracksEmpty : Bool) :
    List MeasureHeader → List JMeasure →
      Option (List MeasureHeader × List Measure)
  | headers, [] => some (headers, [])
  | headers, m :: ms =>
    match decode_measure tracksEmpty headers m with
    | none => none
    | some (headers1, mm) =>
      match decode_measures tracksEmpty headers1 ms with
      | none => none
      | some (headers2, mms) => some (headers2, mm :: mms)

/-- The track object `json_to_song` builds for one track node: name,
percussion flag, channel, strings, and the decoded measures. -/
def decoded_track (jt : JTrack) (ms : List Measure) : Track :=
  { name := jt.name, isPercussionTrack := jt.is_percussion,
    channel := ⟨jt.channel.instrument, jt.channel.volume,
      jt.channel.balance, jt.channel.chorus, jt.channel.reverb,
      jt.channel.phaser, jt.channel.tremolo⟩,
    strings := jt.strings.map (fun g => ⟨g.number, g.value⟩),
    measures := ms }

def decode_track (tracksEmpty : Bool) (headers : List MeasureHeader)
    (jt : JTrack) : Option (List MeasureHeader × Track) :=
  match decode_measures tracksEmpty headers jt.measures with
  | none => none
  | some (headers', ms) => some (headers', decoded_track jt ms)

/-- The track loop of `json_to_song`: each decoded track is appended to
`song.tracks` only after all its measures are processed, so the
"is this the first track" test reads the tracks decoded so far. -/
def decode_tracks :
    List MeasureHeader → List Track → List JTrack →
      Option (List MeasureHeader × List Track)
  | headers, acc, [] => some (headers, acc)
  | headers, acc, jt :: jts =>
    match decode_track acc.isEmpty headers jt with
    | none => none
    | some (headers', t) => decode_tracks headers' (acc ++ [t]) jts

/-- `json_to_song` (`src/utils/json_export.py`): fresh `Song()`,
metadata assigned, then the track loop; `none` models the `except`
branch returning `None`. -/
def json_to_song (j : JSong) : Option Song :=
  let s0 := { blank_song j.metadata.title with
    artist := j.metadata.artist, album := j.metadata.album,
    author := j.metadata.author, copyright := j.metadata.copyright,
    transcriber := j.metadata.transcriber,
    instructions := j.metadata.instructions,
    comments := j.metadata.comments, tempo := j.metadata.tempo }
  match decode_tracks [] [] j.tracks with
  | none => none
  | some (headers, tracks) =>
    some { s0 with measureHeaders := headers, tracks := tracks }

/-! ### Shared helper lemmas and concrete example states -/

def exOk {β : Type} : Except String β → Bool
  | Except.ok _ => true
  | Except.error _ => false

theorem exceptMapList_ok {α β : Type} (f : α → Except String β) (xs : List α) :
    exOk (exceptMapList f xs) = xs.all (fun x => exOk (f x)) := by
  induction xs with
  | nil => rfl
  | cons x xs ih =>
    rw [List.all_cons, ← ih]
    cases hfx : f x with
    | error e => simp [exceptMapList, hfx, exOk]
    | ok y =>
      cases hrest : exceptMapList f xs with
      | error e => simp [exceptMapList, hfx, hrest, exOk]
      | ok ys => simp [exceptMapList, hfx, hrest, exOk]

theorem all_congr_of_eq {α : Type} {f g : α → Bool} (xs : List α)
    (h : ∀ x, f x = g x) : xs.all f = xs.all g := by
  induction xs with
  | nil => rfl
  | cons x xs ih => rw [List.all_cons, List.all_cons, h x, ih]

theorem all_enumFrom_snd {α : Type} (g : α → Bool) (xs : List α) :
    ∀ k, (List.enumFrom k xs).all (fun p => g p.2) = xs.all g := by
  induction xs with
  | nil => intro k; rfl
  | cons x xs ih =>
    intro k
    rw [List.enumFrom, List.all_cons, List.all_cons, ih]

theorem all_enum_snd {α : Type} (g : α → Bool) (xs : List α) :
    xs.enum.all (fun p => g p.2) = xs.all g :=
  all_enumFrom_snd g xs 0

theorem all_false_eq_isEmpty {α : Type} (xs : List α) :
    xs.all (fun _ => false) = xs.isEmpty := by
  cases xs <;> rfl

theorem exOk_beat_to_json (p : Nat × Beat) :
    exOk (beat_to_json p) = p.2.notes.isEmpty := by
  have h0 : exOk (beat_to_json p) =
      exOk (exceptMapList note_to_json p.2.notes) := by
    unfold beat_to_json
    cases exceptMapList note_to_json p.2.notes <;> rfl
  rw [h0, exceptMapList_ok, ← all_false_eq_isEmpty]
  exact all_congr_of_eq p.2.notes (fun _ => rfl)

theorem exOk_voice_to_json (p : Nat × Voice) :
    exOk (voice_to_json p) = p.2.beats.all (fun b => b.notes.isEmpty) := by
  have h0 : exOk (voice_to_json p) =
      exOk (exceptMapList beat_to_json p.2.beats.enum) := by
    unfold voice_to_json
    cases exceptMapList beat_to_json p.2.beats.enum <;> rfl
  rw [h0, exceptMapList_ok,
    all_congr_of_eq p.2.beats.enum (fun q => exOk_beat_to_json q)]
  exact all_enum_snd (fun b => b.notes.isEmpty) p.2.beats

theorem exOk_measure_to_json (p : Nat × Measure) :
    exOk (measure_to_json p) =
      p.2.voices.all (fun v => v.beats.all (fun b => b.notes.isEmpty)) := by
  have h0 : exOk (measure_to_json p) =
      exOk (exceptMapList voice_to_json p.2.voices.enum) := by
    unfold measure_to_json
    cases exceptMapList voice_to_json p.2.voices.enum <;> rfl
  rw [h0, exceptMapList_ok,
    all_congr_of_eq p.2.voices.enum (fun q => exOk_voice_to_json q)]
  exact all_enum_snd (fun v => v.beats.all (fun b => b.notes.isEmpty)) p.2.voices

theorem exOk_track_to_json (p : Nat × Track) :
    exOk (track_to_json p) =
      p.2.measures.all (fun m =>
        m.voices.all (fun v => v.beats.all (fun b => b.notes.isEmpty))) := by
  have h0 : exOk (track_to_json p) =
      exOk (exceptMapList measure_to_json p.2.measures.enum) := by
    unfold track_to_json
    cases exceptMapList measure_to_json p.2.measures.enum <;> rfl
  rw [h0, exceptMapList_ok,
    all_congr_of_eq p.2.measures.enum (fun q => exOk_measure_to_json q)]
  exact all_enum_snd
    (fun m => m.voices.all (fun v => v.beats.all (fun b => b.notes.isEmpty)))
    p.2.measures

theorem not_any_eq_all_not {α : Type} (f : α → Bool) (xs : List α) :
    (!(xs.any f)) = xs.all (fun x => !(f x)) := by
  induction xs with
  | nil => rfl
  | cons x xs ih => rw [List.any_cons, List.all_cons, Bool.not_or, ih]

/-- C10 — For every Song containing at least one Note in any beat,
`export_to_json` returns `False` (the note-serialization step of
`song_to_json` references the undefined module name `gp`, raising a
`NameError` before the file is written), and only songs with zero notes
are exported successfully: `export_to_json` succeeds exactly on note-free
songs. -/
theorem c10_export_fails_iff_note (s : Song) :
    export_to_json s = !song_has_note s := by
  have h0 : export_to_json s =
      exOk (exceptMapList track_to_json s.tracks.enum) := by
    unfold export_to_json song_to_json
    cases exceptMapList track_to_json s.tracks.enum <;> rfl
  rw [h0, exceptMapList_ok,
    all_congr_of_eq s.tracks.enum (fun q => exOk_track_to_json q),
    all_enum_snd (fun t => t.measures.all (fun m =>
      m.voices.all (fun v => v.beats.all (fun b => b.notes.isEmpty)))) s.tracks]
  unfold song_has_note
  rw [not_any_eq_all_not]
  refine all_congr_of_eq s.tracks (fun t => ?_)
  rw [not_any_eq_all_not]
  refine all_congr_of_eq t.measures (fun m => ?_)
  rw [not_any_eq_all_not]
  refine all_congr_of_eq m.voices (fun v => ?_)
  rw [not_any_eq_all_not]
  refine all_congr_of_eq v.beats (fun b => ?_)
  rw [Bool.not_not]

/-- The scenario song of the spec: `create_new_song "Test"` gives one
track "Guitar" with the standard tuning and one measure header. -/
def test_song : Song := create_new_song "Test" ""

/-- A one-track song whose single voice holds a rest beat (no notes)
followed by a quarter beat carrying two simultaneous notes (string 1
fret 0 and string 2 fret 0). -/
def c2_song : Song :=
  { blank_song "T" with
    measureHeaders := [default_measure_header],
    tracks := [{ name := "G", strings := [⟨1, 64⟩, ⟨2, 59⟩],
                 channel := default_channel, isPercussionTrack := false,
                 measures := [⟨some 0,
                   [⟨[⟨⟨4, false, true⟩, [], none⟩,
                      ⟨⟨4, false, false⟩, [mk_note 1 0, mk_note 2 0], none⟩]⟩]⟩] }] }

/-- C2 — the claim is the intended event-projection semantics (one
cursor advance per beat, shared onsets within a beat, rests advance the
cursor); the code contradicts it: on `c2_song` the rest beat (tick
duration 480) is skipped without advancing any time, and the two notes
of the one sounding beat are emitted at absolute onsets 0 and 480
instead of sharing one onset, because each `note_off` carries the
beat's delta time.  (The claimed behavior would put both onsets at
480.) -/
theorem c2_midi_cursor_divergence :
    (convert_to_midi c2_song).map note_on_onsets = [[0, 480]] ∧
    beat_tick_duration ⟨⟨4, false, true⟩, [], none⟩ = 480 := by
  constructor <;> rfl

/-- C4 counterexample — `get_song_info` invoked with no Document Model
loaded does not return an empty mapping: `_ensure_song_loaded` raises
`ValueError`, refuting the claim for this read operation. -/
theorem c4_get_song_info_raises :
    get_song_info none = Except.error "No song is currently loaded" := rfl

/-- C4 amended — with no Document Model loaded, `get_tracks` and
`get_track_notes` return empty lists, `get_song_structure` returns the
empty mapping and `get_song_statistics` returns a mapping holding only
an error message; `get_song_info`, however, raises a StateError
(`ValueError("No song is currently loaded")`) instead of returning an
empty result. -/
theorem c4_absent_model_reads (i : Int) :
    get_tracks none = [] ∧
    get_track_notes none i = [] ∧
    get_song_structure none = StructureResult.empty ∧
    get_song_statistics none = StatsResult.err "No song loaded" ∧
    get_song_info none = Except.error "No song is currently loaded" :=
  ⟨rfl, rfl, rfl, rfl, rfl⟩

/-- C5 counterexample — on the freshly created `test_song` (one measure
header), `set_tempo` with measure index `-2` does not return a success
flag: the growth loop does not run, `measureHeaders[-2]` raises
`IndexError` (result `none`), and the tempo is left unchanged. -/
theorem c5_negative_index_raises :
    set_tempo (some test_song) (-2) 100 = (some test_song, none) := rfl

/-- One iteration of the header growth loop. -/
def add_header_step (s : Song) : Song := (add_measure_headerS s).1

theorem add_header_step_headers_len (s : Song) :
    (add_header_step s).measureHeaders.length = s.measureHeaders.length + 1 := by
  simp [add_header_step, add_measure_headerS]

theorem add_header_step_tracks (s : Song) (k : Nat) :
    (add_header_step s).tracks[k]? = (s.tracks[k]?).map
      (fun t => { t with measures := t.measures ++
        [⟨some s.measureHeaders.length, [empty_voice]⟩] }) := by
  simp [add_header_step, add_measure_headerS, List.getElem?_map]

theorem add_header_step_tracks_len (s : Song) :
    (add_header_step s).tracks.length = s.tracks.length := by
  simp [add_header_step, add_measure_headerS]

theorem iterApp_headers_len :
    ∀ (n : Nat) (s : Song),
      (iterApp add_header_step n s).measureHeaders.length =
        s.measureHeaders.length + n := by
  intro n
  induction n with
  | zero => intro s; rfl
  | succ m ih =>
    intro s
    simp only [iterApp]
    rw [ih, add_header_step_headers_len]
    omega

theorem iterApp_tracks_len :
    ∀ (n : Nat) (s : Song),
      (iterApp add_header_step n s).tracks.length = s.tracks.length := by
  intro n
  induction n with
  | zero => intro s; rfl
  | succ m ih =>
    intro s
    simp only [iterApp]
    rw [ih, add_header_step_tracks_len]

theorem iterApp_track_measures :
    ∀ (n : Nat) (s : Song) (k : Nat) (t : Track), s.tracks[k]? = some t →
      ∃ t', (iterApp add_header_step n s).tracks[k]? = some t' ∧
        t'.measures.length = t.measures.length + n := by
  intro n
  induction n with
  | zero => intro s k t ht; exact ⟨t, ht, rfl⟩
  | succ m ih =>
    intro s k t ht
    have hstep : (add_header_step s).tracks[k]? = some
        { t with measures := t.measures ++
          [⟨some s.measureHeaders.length, [empty_voice]⟩] } := by
      rw [add_header_step_tracks, ht]; rfl
    obtain ⟨t', ht', hlen⟩ := ih (add_header_step s) k _ hstep
    refine ⟨t', ht', ?_⟩
    simp only [List.length_append, List.length_cons, List.length_nil] at hlen
    omega

theorem ensure_headers_eq (s : Song) (mIdx : Int) :
    ensure_headers s mIdx =
      iterApp add_header_step (mIdx + 1 - (s.measureHeaders.length : Int)).toNat s :=
  rfl

/-- C5 amended — for every loaded Song, every measure_index that is at
least 0 and every tempo, `set_tempo` returns the success flag `True`
and sets the song-global tempo regardless of the index, growing the
measure-header list (with a measure appended to every track for each
new header) until the index is in range; a negative out-of-range index
instead raises `IndexError` (the counterexample). -/
theorem c5_set_tempo_amended (s : Song) (mIdx tempo : Int) (h : 0 ≤ mIdx) :
    ∃ s', set_tempo (some s) mIdx tempo = (some s', some true) ∧
      s'.tempo = tempo ∧
      s'.measureHeaders.length = max s.measureHeaders.length (mIdx.toNat + 1) ∧
      s'.tracks.length = s.tracks.length ∧
      ∀ (k : Nat) (t : Track), s.tracks[k]? = some t →
        ∃ t' : Track, s'.tracks[k]? = some t' ∧
          t'.measures.length = t.measures.length +
            (s'.measureHeaders.length - s.measureHeaders.length) := by
  have hlen : (ensure_headers s mIdx).measureHeaders.length =
      s.measureHeaders.length +
        (mIdx + 1 - (s.measureHeaders.length : Int)).toNat := by
    rw [ensure_headers_eq]; exact iterApp_headers_len _ s
  have hlt : mIdx < ((ensure_headers s mIdx).measureHeaders.length : Int) := by
    omega
  have hres : pyResolve (ensure_headers s mIdx).measureHeaders.length mIdx =
      some mIdx.toNat := by
    unfold pyResolve
    rw [if_pos h, if_pos hlt]
  refine ⟨{ ensure_headers s mIdx with tempo := tempo }, ?_, rfl, ?_, ?_, ?_⟩
  · simp only [set_tempo]
    rw [hres]
  · rw [hlen]; omega
  · rw [ensure_headers_eq]; exact iterApp_tracks_len _ s
  · intro k t ht
    obtain ⟨t', ht', hm⟩ :=
      iterApp_track_measures
        (mIdx + 1 - (s.measureHeaders.length : Int)).toNat s k t ht
    refine ⟨t', ?_, ?_⟩
    · exact ht'
    · rw [hm, hlen]; omega

/-- C5 witness — at the concrete fresh song and measure index 3. -/
theorem c5_set_tempo_amended_witness :
    ∃ s', set_tempo (some test_song) 3 150 = (some s', some true) ∧
      s'.tempo = 150 ∧
      s'.measureHeaders.length =
        max test_song.measureHeaders.length ((3 : Int).toNat + 1) ∧
      s'.tracks.length = test_song.tracks.length ∧
      ∀ (k : Nat) (t : Track), test_song.tracks[k]? = some t →
        ∃ t' : Track, s'.tracks[k]? = some t' ∧
          t'.measures.length = t.measures.length +
            (s'.measureHeaders.length - test_song.measureHeaders.length) :=
  c5_set_tempo_amended test_song 3 150 (by decide)

theorem list_set_getD_self {α : Type} (l : List α) (i : Nat) (d : α)
    (h : i < l.length) : l.set i (l.getD i d) = l := by
  have hg : l.getD i d = l[i] := by
    rw [List.getD_eq_getElem?_getD, List.getElem?_eq_getElem h]; rfl
  rw [hg]
  apply List.ext_getElem
  · simp
  · intro n h1 h2
    simp only [List.getElem_set]
    split
    · subst ‹i = n›; rfl
    · rfl

/-- C3 counterexample — `set_track_properties` called on the fresh
`test_song` with a valid name and an invalid instrument (200) returns a
failure indication, yet the Document Model is not as it was before the
call: the track name was already assigned when the instrument
validation failed. -/
theorem c3_partial_mutation_cex :
    (set_track_properties (some test_song) 0 (some "X") (some 200) none none).2
        = false ∧
    (set_track_properties (some test_song) 0 (some "X") (some 200) none none).1
        ≠ some test_song := by
  refine ⟨rfl, ?_⟩
  decide

/-- C3 amended — mutation operations called with an invalid track index
(`add_note`, `add_note_with_effects`, `transpose_track`,
`set_track_properties`) or an invalid measure index (`add_note`,
`add_note_with_effects`) return a failure indication and leave the
Document Model exactly as it was, and so does `set_track_properties`
whose only supplied property is an out-of-range instrument; but
`set_track_properties` applies properties sequentially (name,
instrument, volume, pan), so a call supplying a name together with a
later invalid value returns failure with the name already applied — the
no-partial-mutation guarantee does not extend to it (counterexample),
nor to `add_note` calls whose beat index exceeds the beat-list length
by more than one. -/
theorem c3_invalid_input_amended :
    (∀ (s : Song) (tIdx mIdx str fret dur vIdx bIdx : Int),
      ((s.tracks.length : Int) ≤ tIdx ∨ tIdx < 0) →
      add_note (some s) tIdx mIdx str fret dur vIdx bIdx = (some s, false)) ∧
    (∀ (s : Song) (tIdx mIdx str fret dur vIdx bIdx : Int),
      0 ≤ tIdx → tIdx < (s.tracks.length : Int) →
      (((s.tracks.getD tIdx.toNat default_track).measures.length : Int) ≤ mIdx
        ∨ mIdx < 0) →
      add_note (some s) tIdx mIdx str fret dur vIdx bIdx = (some s, false)) ∧
    (∀ (s : Song) (tIdx mIdx str fret dur vIdx bIdx : Int)
        (e1 e2 e3 e4 e5 e6 e7 e8 : Bool),
      ((s.tracks.length : Int) ≤ tIdx ∨ tIdx < 0) →
      add_note_with_effects (some s) tIdx mIdx str fret dur vIdx bIdx
        e1 e2 e3 e4 e5 e6 e7 e8 = (some s, false)) ∧
    (∀ (s : Song) (tIdx mIdx str fret dur vIdx bIdx : Int)
        (e1 e2 e3 e4 e5 e6 e7 e8 : Bool),
      0 ≤ tIdx → tIdx < (s.tracks.length : Int) →
      (((s.tracks.getD tIdx.toNat default_track).measures.length : Int) ≤ mIdx
        ∨ mIdx < 0) →
      add_note_with_effects (some s) tIdx mIdx str fret dur vIdx bIdx
        e1 e2 e3 e4 e5 e6 e7 e8 = (some s, false)) ∧
    (∀ (s : Song) (tIdx semis : Int),
      ((s.tracks.length : Int) ≤ tIdx ∨ tIdx < 0) →
      transpose_track (some s) tIdx semis = (some s, false)) ∧
    (∀ (s : Song) (tIdx : Int) (name : Option String)
        (ins vol pan : Option Int),
      ((s.tracks.length : Int) ≤ tIdx ∨ tIdx < 0) →
      set_track_properties (some s) tIdx name ins vol pan = (some s, false)) ∧
    (∀ (s : Song) (tIdx ins : Int),
      0 ≤ tIdx → tIdx < (s.tracks.length : Int) → (ins < 0 ∨ 127 < ins) →
      set_track_properties (some s) tIdx none (some ins) none none
        = (some s, false)) := by
  refine ⟨?_, ?_, ?_, ?_, ?_, ?_, ?_⟩
  · intro s tIdx mIdx str fret dur vIdx bIdx h
    simp only [add_note]
    rw [if_pos (h.elim Or.inr Or.inl)]
  · intro s tIdx mIdx str fret dur vIdx bIdx h0 h1 h2
    simp only [add_note]
    rw [if_neg (by omega), if_pos (h2.elim Or.inr Or.inl)]
  · intro s tIdx mIdx str fret dur vIdx bIdx e1 e2 e3 e4 e5 e6 e7 e8 h
    simp only [add_note_with_effects]
    rw [if_pos (h.elim Or.inr Or.inl)]
  · intro s tIdx mIdx str fret dur vIdx bIdx e1 e2 e3 e4 e5 e6 e7 e8 h0 h1 h2
    simp only [add_note_with_effects]
    rw [if_neg (by omega), if_pos (h2.elim Or.inr Or.inl)]
  · intro s tIdx semis h
    simp only [transpose_track]
    rw [if_pos (h.elim Or.inr Or.inl)]
  · intro s tIdx name ins vol pan h
    simp only [set_track_properties]
    rw [if_pos (h.elim Or.inr Or.inl)]
  · intro s tIdx ins h0 h1 h2
    have hnot : ¬(0 ≤ ins ∧ ins ≤ 127) := by
      rcases h2 with h | h <;> omega
    simp only [set_track_properties]
    rw [if_neg (show ¬(tIdx < 0 ∨ (s.tracks.length : Int) ≤ tIdx) by omega)]
    have happ : apply_track_props (s.tracks.getD tIdx.toNat default_track)
        none (some ins) none none
        = (s.tracks.getD tIdx.toNat default_track, false) := by
      simp only [apply_track_props]
      rw [if_neg hnot]
      rfl
    rw [happ]
    have hlt : tIdx.toNat < s.tracks.length := by omega
    rw [list_set_getD_self s.tracks tIdx.toNat default_track hlt]

/-- C3 witness — the amended statement applied at concrete invalid
inputs on the fresh one-track, one-measure `test_song`. -/
theorem c3_invalid_input_amended_witness :
    add_note (some test_song) 1 0 1 3 4 0 0 = (some test_song, false) ∧
    add_note (some test_song) 0 5 1 3 4 0 0 = (some test_song, false) ∧
    add_note_with_effects (some test_song) 1 0 1 3 4 0 0
      true false false false false false false false = (some test_song, false) ∧
    add_note_with_effects (some test_song) 0 5 1 3 4 0 0
      true false false false false false false false = (some test_song, false) ∧
    transpose_track (some test_song) 7 2 = (some test_song, false) ∧
    set_track_properties (some test_song) (-1) (some "Y") none none none
      = (some test_song, false) ∧
    set_track_properties (some test_song) 0 none (some 200) none none
      = (some test_song, false) :=
  ⟨c3_invalid_input_amended.1 test_song 1 0 1 3 4 0 0 (by decide),
   c3_invalid_input_amended.2.1 test_song 0 5 1 3 4 0 0 (by decide) (by decide)
     (by decide),
   c3_invalid_input_amended.2.2.1 test_song 1 0 1 3 4 0 0
     true false false false false false false false (by decide),
   c3_invalid_input_amended.2.2.2.1 test_song 0 5 1 3 4 0 0
     true false false false false false false false (by decide) (by decide)
     (by decide),
   c3_invalid_input_amended.2.2.2.2.1 test_song 7 2 (by decide),
   c3_invalid_input_amended.2.2.2.2.2.1 test_song (-1) (some "Y") none none none
     (by decide),
   c3_invalid_input_amended.2.2.2.2.2.2 test_song 0 200 (by decide) (by decide)
     (by decide)⟩

/-- The header/measure invariant: every track owns exactly one measure
per song measure header. -/
def header_measure_inv (s : Song) : Bool :=
  s.tracks.all (fun t => t.measures.length == s.measureHeaders.length)

theorem inv_iff (s : Song) : header_measure_inv s = true ↔
    ∀ t ∈ s.tracks, t.measures.length = s.measureHeaders.length := by
  simp [header_measure_inv, List.all_eq_true]

def opt_inv : Option Song → Bool
  | none => true
  | some s => header_measure_inv s

theorem inv_add_trackS (s : Song) (name : String)
    (h : header_measure_inv s = true) :
    header_measure_inv (add_trackS s name).1 = true := by
  rw [inv_iff] at h ⊢
  intro t ht
  simp only [add_trackS, List.mem_append, List.mem_singleton] at ht
  rcases ht with ht | ht
  · exact h t ht
  · subst ht
    simp [add_trackS, gp_track]

theorem inv_add_header_step (s : Song)
    (h : header_measure_inv s = true) :
    header_measure_inv (add_header_step s) = true := by
  rw [inv_iff] at h ⊢
  intro t ht
  simp only [add_header_step, add_measure_headerS, List.mem_map] at ht
  obtain ⟨u, hu, hut⟩ := ht
  subst hut
  simp only [add_header_step, add_measure_headerS, List.length_append,
    List.length_cons, List.length_nil]
  rw [h u hu]

theorem inv_iterApp (n : Nat) :
    ∀ s : Song, header_measure_inv s = true →
      header_measure_inv (iterApp add_header_step n s) = true := by
  induction n with
  | zero => intro s h; exact h
  | succ m ih => intro s h; exact ih _ (inv_add_header_step s h)

theorem inv_ensure_headers (s : Song) (mIdx : Int)
    (h : header_measure_inv s = true) :
    header_measure_inv (ensure_headers s mIdx) = true := by
  rw [ensure_headers_eq]
  exact inv_iterApp _ s h

theorem inv_tracks_set (s : Song) (ti : Nat) (t' : Track)
    (hlen : t'.measures.length = s.measureHeaders.length)
    (h : header_measure_inv s = true) :
    header_measure_inv { s with tracks := s.tracks.set ti t' } = true := by
  rw [inv_iff] at h ⊢
  intro t ht
  simp only at ht
  rcases List.mem_or_eq_of_mem_set ht with hmem | heq
  · exact h t hmem
  · subst heq
    exact hlen

theorem getD_mem_of_lt {α : Type} (l : List α) (i : Nat) (d : α)
    (hlt : i < l.length) : l.getD i d ∈ l := by
  have hg : l.getD i d = l[i] := by
    rw [List.getD_eq_getElem?_getD, List.getElem?_eq_getElem hlt]; rfl
  rw [hg]
  exact List.getElem_mem hlt

theorem inv_set_measure_voices (s : Song) (ti mi : Nat) (vs : List Voice)
    (h : header_measure_inv s = true) :
    header_measure_inv (set_measure_voices s ti mi vs) = true := by
  unfold set_measure_voices
  by_cases hlt : ti < s.tracks.length
  · refine inv_tracks_set s ti _ ?_ h
    simp only [List.length_set]
    exact (inv_iff s).mp h _ (getD_mem_of_lt s.tracks ti default_track hlt)
  · rw [inv_iff] at h ⊢
    intro t ht
    simp only [List.set_eq_of_length_le (show s.tracks.length ≤ ti by omega)] at ht
    exact h t ht

theorem inv_header_set (s : Song) (k : Nat) (h' : MeasureHeader)
    (h : header_measure_inv s = true) :
    header_measure_inv { s with measureHeaders := s.measureHeaders.set k h' }
      = true := by
  rw [inv_iff] at h ⊢
  intro t ht
  simp only [List.length_set]
  exact h t ht

theorem transpose_trackS_measures_len (t : Track) (semis : Int) :
    (transpose_trackS t semis).measures.length = t.measures.length := by
  simp [transpose_trackS]

theorem inv_transpose_trackS (s : Song) (ti : Nat) (semis : Int)
    (hlt : ti < s.tracks.length)
    (h : header_measure_inv s = true) :
    header_measure_inv { s with tracks := s.tracks.set ti (transpose_trackS (s.tracks.getD ti default_track) semis) } = true := by
  refine inv_tracks_set s ti _ ?_ h
  rw [transpose_trackS_measures_len]
  exact (inv_iff s).mp h _ (getD_mem_of_lt s.tracks ti default_track hlt)

/-- C1 — for every loaded Song satisfying the header/measure invariant,
the invariant `len(T.measures) == len(song.measureHeaders)` for every
track T still holds after each mutating operation: `add_track`,
`add_measure_header`, `add_note`, `set_time_signature`,
`set_key_signature`, `set_tempo` and `transpose_track` (including the
operations' failure and exception paths). -/
theorem c1_header_measure_invariant (s : Song)
    (h : header_measure_inv s = true) :
    (∀ name, opt_inv (add_track (some s) name).1 = true) ∧
    opt_inv (add_measure_header (some s)).1 = true ∧
    (∀ a b c d e f g : Int, opt_inv (add_note (some s) a b c d e f g).1 = true) ∧
    (∀ m n d : Int, opt_inv (set_time_signature (some s) m n d).1 = true) ∧
    (∀ m k : Int, opt_inv (set_key_signature (some s) m k).1 = true) ∧
    (∀ m t : Int, opt_inv (set_tempo (some s) m t).1 = true) ∧
    (∀ i n : Int, opt_inv (transpose_track (some s) i n).1 = true) := by
  refine ⟨?_, ?_, ?_, ?_, ?_, ?_, ?_⟩
  · intro name
    exact inv_add_trackS s name h
  · exact inv_add_header_step s h
  · intro a b c d e f g
    simp only [add_note]
    split
    · exact h
    · split
      · exact h
      · split
        · exact inv_set_measure_voices s _ _ _ h
        · split
          · exact inv_set_measure_voices s _ _ _ h
          · exact inv_set_measure_voices s _ _ _ h
  · intro m n d
    simp only [set_time_signature]
    split
    · exact inv_ensure_headers s m h
    · exact inv_header_set (ensure_headers s m) _ _ (inv_ensure_headers s m h)
  · intro m k
    simp only [set_key_signature]
    split
    · exact inv_ensure_headers s m h
    · exact inv_header_set (ensure_headers s m) _ _ (inv_ensure_headers s m h)
  · intro m t
    have htempo : header_measure_inv { ensure_headers s m with tempo := t } = true := by
      rw [inv_iff]
      exact (inv_iff _).mp (inv_ensure_headers s m h)
    simp only [set_tempo]
    split
    · exact inv_ensure_headers s m h
    · exact htempo
  · intro i n
    simp only [transpose_track]
    split
    · exact h
    next hc =>
      have hlt : i.toNat < s.tracks.length := by
        rcases not_or.mp hc with ⟨h1, h2⟩
        omega
      exact inv_transpose_trackS s i.toNat n hlt h

/-- C1 witness — the invariant after each operation on the concrete
fresh song. -/
theorem c1_header_measure_invariant_witness :
    opt_inv (add_track (some test_song) "Second").1 = true ∧
    opt_inv (add_measure_header (some test_song)).1 = true ∧
    opt_inv (add_note (some test_song) 0 0 1 3 4 0 0).1 = true ∧
    opt_inv (set_time_signature (some test_song) 2 3 4).1 = true ∧
    opt_inv (set_key_signature (some test_song) 1 2).1 = true ∧
    opt_inv (set_tempo (some test_song) 3 150).1 = true ∧
    opt_inv (transpose_track (some test_song) 0 2).1 = true := by
  have h := c1_header_measure_invariant test_song (by decide)
  exact ⟨h.1 "Second", h.2.1, h.2.2.1 0 0 1 3 4 0 0, h.2.2.2.1 2 3 4,
    h.2.2.2.2.1 1 2, h.2.2.2.2.2.1 3 150, h.2.2.2.2.2.2 0 2⟩

/-- The note stored at position (measure, voice, beat, note) of a
track, if any. -/
def note_at_track (t : Track) (mi vi bi ni : Nat) : Option Note :=
  (t.measures[mi]?).bind fun m =>
    (m.voices[vi]?).bind fun v =>
      (v.beats[bi]?).bind fun b => b.notes[ni]?

/-- The note stored at position (track, measure, voice, beat, note) of
a song, if any. -/
def note_at (s : Song) (ti mi vi bi ni : Nat) : Option Note :=
  (s.tracks[ti]?).bind fun t => note_at_track t mi vi bi ni

theorem note_at_track_transpose (t : Track) (semis : Int) (mi vi bi ni : Nat) :
    note_at_track (transpose_trackS t semis) mi vi bi ni =
      (note_at_track t mi vi bi ni).map (transpose_note t.strings semis) := by
  unfold note_at_track transpose_trackS
  simp only []
  rw [List.getElem?_map]
  cases hm : t.measures[mi]? with
  | none => rfl
  | some m =>
    simp only [Option.map_some', Option.some_bind]
    rw [List.getElem?_map]
    cases hv : m.voices[vi]? with
    | none => rfl
    | some v =>
      simp only [Option.map_some', Option.some_bind]
      rw [List.getElem?_map]
      cases hb : v.beats[bi]? with
      | none => rfl
      | some b =>
        simp only [Option.map_some', Option.some_bind]
        rw [List.getElem?_map]

theorem transpose_trackS_strings (t : Track) (semis : Int) :
    (transpose_trackS t semis).strings = t.strings := rfl

theorem transpose_note_tied (strs : List GuitarString) (semis : Int) (n : Note)
    (h : n.isTiedNote = true) : transpose_note strs semis n = n := by
  simp [transpose_note, h]

theorem transpose_note_found (strs : List GuitarString) (semis : Int) (n : Note)
    (htied : n.isTiedNote = false) (g : GuitarString)
    (hg : find_string strs n.string = some g) :
    transpose_note strs semis n =
      if 0 ≤ n.value + semis then { n with value := n.value + semis } else n := by
  simp only [transpose_note, htied, Bool.false_eq_true, if_false, hg]
  have harith : g.value + n.value + semis - g.value = n.value + semis := by ring
  rw [harith]

/-- The result of a successful `transpose_track` call on a loaded song
with a valid index. -/
theorem transpose_track_valid (s : Song) (tIdx semis : Int)
    (h0 : 0 ≤ tIdx) (h1 : tIdx < (s.tracks.length : Int)) :
    transpose_track (some s) tIdx semis =
      (some { s with tracks := s.tracks.set tIdx.toNat (transpose_trackS (s.tracks.getD tIdx.toNat default_track) semis) }, true) := by
  simp only [transpose_track]
  rw [if_neg (show ¬(tIdx < 0 ∨ (s.tracks.length : Int) ≤ tIdx) by omega)]

theorem note_at_after_transpose (s : Song) (tIdx semis : Int)
    (h0 : 0 ≤ tIdx) (h1 : tIdx < (s.tracks.length : Int))
    (ti mi vi bi ni : Nat) :
    note_at { s with tracks := s.tracks.set tIdx.toNat (transpose_trackS (s.tracks.getD tIdx.toNat default_track) semis) } ti mi vi bi ni =
      if tIdx.toNat = ti then
        (note_at s ti mi vi bi ni).map
          (transpose_note (s.tracks.getD tIdx.toNat default_track).strings semis)
      else note_at s ti mi vi bi ni := by
  have hlt : tIdx.toNat < s.tracks.length := by omega
  by_cases hk : tIdx.toNat = ti
  · subst hk
    rw [if_pos rfl]
    unfold note_at
    simp only []
    rw [List.getElem?_set_eq_of_lt _ hlt, Option.some_bind,
      note_at_track_transpose]
    have hgd : s.tracks.getD tIdx.toNat default_track = s.tracks[tIdx.toNat] := by
      rw [List.getD_eq_getElem?_getD, List.getElem?_eq_getElem hlt]; rfl
    rw [List.getElem?_eq_getElem hlt, Option.some_bind, hgd]
  · rw [if_neg hk]
    unfold note_at
    simp only []
    rw [List.getElem?_set_ne hk]

/-- C6 — for every loaded Song, valid track index and semitone count,
`transpose_track` succeeds and never changes a note whose `isTiedNote`
flag is set (tied notes are skipped by the per-note loop): any tied note
found at the same position afterwards is the very same note. -/
theorem c6_transpose_skips_tied (s : Song) (tIdx semitones : Int)
    (h0 : 0 ≤ tIdx) (h1 : tIdx < (s.tracks.length : Int)) :
    (transpose_track (some s) tIdx semitones).2 = true ∧
    ∀ s', (transpose_track (some s) tIdx semitones).1 = some s' →
      ∀ ti mi vi bi ni : Nat, ∀ n n' : Note,
        note_at s ti mi vi bi ni = some n →
        note_at s' ti mi vi bi ni = some n' →
        n.isTiedNote = true → n' = n := by
  rw [transpose_track_valid s tIdx semitones h0 h1]
  refine ⟨rfl, ?_⟩
  intro s' hs'
  injection hs' with hs'
  subst hs'
  intro ti mi vi bi ni n n' hn hn' htied
  rw [note_at_after_transpose s tIdx semitones h0 h1] at hn'
  by_cases hk : tIdx.toNat = ti
  · rw [if_pos hk, hn, Option.map_some'] at hn'
    injection hn' with hn'
    rw [← hn', transpose_note_tied _ _ _ htied]
  · rw [if_neg hk, hn] at hn'
    injection hn' with hn'
    exact hn'.symm

/-- C6 witness — on a concrete two-note song whose first note is tied:
the tied note keeps fret 3 while the other note is shifted. -/
def c6_song : Song :=
  { blank_song "W" with
    measureHeaders := [default_measure_header],
    tracks := [{ name := "G", strings := [⟨1, 64⟩],
                 channel := default_channel, isPercussionTrack := false,
                 measures := [⟨some 0,
                   [⟨[⟨⟨4, false, false⟩,
                       [{ mk_note 1 3 with isTiedNote := true }, mk_note 1 5],
                       none⟩]⟩]⟩] }] }

theorem c6_transpose_skips_tied_witness :
    (transpose_track (some c6_song) 0 2).2 = true ∧
    ∀ s', (transpose_track (some c6_song) 0 2).1 = some s' →
      ∀ ti mi vi bi ni : Nat, ∀ n n' : Note,
        note_at c6_song ti mi vi bi ni = some n →
        note_at s' ti mi vi bi ni = some n' →
        n.isTiedNote = true → n' = n :=
  c6_transpose_skips_tied c6_song 0 2 (by decide) (by decide)

/-- C7 — for every loaded Song, valid track index and semitone count,
`transpose_track` returns success and, for every non-tied note of the
transposed track whose string number exists among the track's strings
(the data model's well-formedness condition): when the recomputed fret
`note.value + semitones` would be negative the note is left unchanged
(silent clamp, no error, no abort), and otherwise its fret becomes
`note.value + semitones`. -/
theorem c7_transpose_clamp (s : Song) (tIdx semitones : Int)
    (h0 : 0 ≤ tIdx) (h1 : tIdx < (s.tracks.length : Int)) :
    (transpose_track (some s) tIdx semitones).2 = true ∧
    ∀ s', (transpose_track (some s) tIdx semitones).1 = some s' →
      ∀ mi vi bi ni : Nat, ∀ n n' : Note,
        note_at s tIdx.toNat mi vi bi ni = some n →
        note_at s' tIdx.toNat mi vi bi ni = some n' →
        n.isTiedNote = false →
        ∀ g : GuitarString,
          find_string (s.tracks.getD tIdx.toNat default_track).strings n.string
            = some g →
          (n.value + semitones < 0 → n' = n) ∧
          (0 ≤ n.value + semitones →
            n' = { n with value := n.value + semitones }) := by
  rw [transpose_track_valid s tIdx semitones h0 h1]
  refine ⟨rfl, ?_⟩
  intro s' hs'
  injection hs' with hs'
  subst hs'
  intro mi vi bi ni n n' hn hn' htied g hg
  rw [note_at_after_transpose s tIdx semitones h0 h1, if_pos rfl, hn,
    Option.map_some'] at hn'
  injection hn' with hn'
  rw [← hn', transpose_note_found _ _ _ htied g hg]
  constructor
  · intro hneg; rw [if_neg (by omega)]
  · intro hpos; rw [if_pos hpos]

/-- C7 witness — on a one-string song with an in-range note (fret 3)
shifted by −5, the clamp leaves the note unchanged while the call
succeeds. -/
def c7_song : Song :=
  { blank_song "W7" with
    measureHeaders := [default_measure_header],
    tracks := [{ name := "G", strings := [⟨1, 64⟩],
                 channel := default_channel, isPercussionTrack := false,
                 measures := [⟨some 0,
                   [⟨[⟨⟨4, false, false⟩, [mk_note 1 3], none⟩]⟩]⟩] }] }

theorem c7_transpose_clamp_witness :
    (transpose_track (some c7_song) 0 (-5)).2 = true ∧
    ∀ s', (transpose_track (some c7_song) 0 (-5)).1 = some s' →
      ∀ mi vi bi ni : Nat, ∀ n n' : Note,
        note_at c7_song 0 mi vi bi ni = some n →
        note_at s' 0 mi vi bi ni = some n' →
        n.isTiedNote = false →
        ∀ g : GuitarString,
          find_string (c7_song.tracks.getD 0 default_track).strings n.string
            = some g →
          (n.value + -5 < 0 → n' = n) ∧
          (0 ≤ n.value + -5 → n' = { n with value := n.value + -5 }) :=
  c7_transpose_clamp c7_song 0 (-5) (by decide) (by decide)

theorem transpose_note_roundtrip (strs : List GuitarString) (semis : Int)
    (n : Note) (h0 : 0 ≤ n.value) (h1 : 0 ≤ n.value + semis) :
    transpose_note strs (-semis) (transpose_note strs semis n) = n := by
  by_cases htied : n.isTiedNote = true
  · rw [transpose_note_tied _ _ _ htied, transpose_note_tied _ _ _ htied]
  · have htied' : n.isTiedNote = false := by
      cases hx : n.isTiedNote
      · rfl
      · exact absurd hx htied
    cases hg : find_string strs n.string with
    | none =>
      have hid : transpose_note strs semis n = n := by
        simp [transpose_note, htied', hg]
      rw [hid]
      simp [transpose_note, htied', hg]
    | some g =>
      rw [transpose_note_found strs semis n htied' g hg, if_pos h1]
      have htied2 : ({ n with value := n.value + semis } : Note).isTiedNote
          = false := htied'
      have hg2 : find_string strs
          ({ n with value := n.value + semis } : Note).string = some g := hg
      rw [transpose_note_found strs (-semis) _ htied2 g hg2]
      have harith : ({ n with value := n.value + semis } : Note).value + -semis
          = n.value := by
        simp only []
        ring
      rw [harith, if_pos h0]

/-- C8 — for every loaded Song, valid track index and semitone count n,
`transpose_track(i, +n)` followed by `transpose_track(i, -n)` restores
the original fret value of every note whose fret stayed non-negative
throughout both calls, i.e. whose original fret and recomputed fret
(original + n) are both non-negative. -/
theorem c8_transpose_inverse (s : Song) (tIdx n : Int)
    (h0 : 0 ≤ tIdx) (h1 : tIdx < (s.tracks.length : Int)) :
    ∀ s1, (transpose_track (some s) tIdx n).1 = some s1 →
    ∀ s2, (transpose_track (some s1) tIdx (-n)).1 = some s2 →
      ∀ ti mi vi bi ni : Nat, ∀ nt nt'' : Note,
        note_at s ti mi vi bi ni = some nt →
        note_at s2 ti mi vi bi ni = some nt'' →
        0 ≤ nt.value → 0 ≤ nt.value + n →
        nt''.value = nt.value := by
  have hlt : tIdx.toNat < s.tracks.length := by omega
  rw [transpose_track_valid s tIdx n h0 h1]
  intro s1 hs1
  injection hs1 with hs1
  subst hs1
  intro s2 hs2
  have hlen1 : ((s.tracks.set tIdx.toNat (transpose_trackS (s.tracks.getD tIdx.toNat default_track) n)).length : Int) = (s.tracks.length : Int) := by
    rw [List.length_set]
  rw [transpose_track_valid _ tIdx (-n) h0 (by rw [hlen1]; exact h1)] at hs2
  injection hs2 with hs2
  subst hs2
  intro ti mi vi bi ni nt nt'' hnt hnt'' hv0 hv1
  have hgd1 : (s.tracks.set tIdx.toNat (transpose_trackS (s.tracks.getD tIdx.toNat default_track) n)).getD tIdx.toNat default_track = transpose_trackS (s.tracks.getD tIdx.toNat default_track) n := by
    rw [List.getD_eq_getElem?_getD, List.getElem?_set_eq_of_lt _ hlt]
    rfl
  rw [note_at_after_transpose _ tIdx (-n) h0 (by rw [hlen1]; exact h1)] at hnt''
  rw [note_at_after_transpose s tIdx n h0 h1] at hnt''
  by_cases hk : tIdx.toNat = ti
  · rw [if_pos hk, if_pos hk, hnt, Option.map_some', Option.map_some']
      at hnt''
    injection hnt'' with hnt''
    rw [hgd1, transpose_trackS_strings] at hnt''
    rw [← hnt'',
      transpose_note_roundtrip (s.tracks.getD tIdx.toNat default_track).strings
        n nt hv0 hv1]
  · rw [if_neg hk, if_neg hk, hnt] at hnt''
    injection hnt'' with hnt''
    rw [← hnt'']

/-- The concrete round trip for the C8 witness: `c6_song` transposed by
+2 and then −2, and the non-tied note (position 1 of the only beat)
before and after. -/
def c8_s1 : Song := (transpose_track (some c6_song) 0 2).1.getD c6_song

def c8_s2 : Song := (transpose_track (some c8_s1) 0 (-2)).1.getD c6_song

def c8_nt : Note := (note_at c6_song 0 0 0 0 1).getD (mk_note 1 0)

def c8_nt2 : Note := (note_at c8_s2 0 0 0 0 1).getD (mk_note 1 0)

/-- C8 witness — on the concrete song, the non-tied fret-5 note comes
back to its original value after +2 then −2. -/
theorem c8_transpose_inverse_witness : c8_nt2.value = c8_nt.value :=
  c8_transpose_inverse c6_song 0 2 (by decide) (by decide)
    c8_s1 (by decide) c8_s2 (by decide) 0 0 0 0 1 c8_nt c8_nt2
    (by decide) (by decide) (by decide) (by decide)

theorem pyResolve_natCast (len p : Nat) (h : p < len) :
    pyResolve len (p : Int) = some p := by
  unfold pyResolve
  rw [if_pos (by omega), if_pos (by omega)]
  congr 1

theorem decode_measures_first (ms : List JMeasure) :
    ∀ headers : List MeasureHeader,
      ∃ hs' mms, decode_measures true headers ms = some (hs', mms) ∧
        hs'.length = headers.length + ms.length ∧
        mms.length = ms.length ∧
        ∀ (k : Nat) (m : Measure), mms[k]? = some m →
          m.headerIdx = some (headers.length + k) := by
  induction ms with
  | nil =>
    intro headers
    refine ⟨headers, [], rfl, by simp, rfl, ?_⟩
    intro k m hm
    simp at hm
  | cons jm ms ih =>
    intro headers
    obtain ⟨hs', mms, hdec, hlen, hmlen, hidx⟩ :=
      ih (headers ++ [default_measure_header])
    refine ⟨hs',
      ({ headerIdx := some headers.length,
         voices := jm.voices.map decode_voice } : Measure) :: mms, ?_, ?_, ?_, ?_⟩
    · simp only [decode_measures, decode_measure, if_true]
      rw [hdec]
    · rw [hlen]
      simp only [List.length_append, List.length_cons, List.length_nil]
      omega
    · simp [hmlen]
    · intro k m hm
      cases k with
      | zero =>
        simp only [List.getElem?_cons_zero] at hm
        injection hm with hm
        rw [← hm]
        simp
      | succ k' =>
        simp only [List.getElem?_cons_succ] at hm
        have := hidx k' m hm
        rw [this]
        simp only [List.length_append, List.length_cons, List.length_nil]
        congr 1
        omega

theorem decode_measures_rest (ms : List JMeasure) :
    ∀ (headers : List MeasureHeader) (p : Nat),
      (∀ (k : Nat) (jm : JMeasure), ms[k]? = some jm →
        jm.index = ((p + k : Nat) : Int)) →
      (∀ k : Nat, k < ms.length → p + k < headers.length) →
      ∃ mms, decode_measures false headers ms = some (headers, mms) ∧
        mms.length = ms.length ∧
        ∀ (k : Nat) (m : Measure), mms[k]? = some m →
          m.headerIdx = some (p + k) := by
  induction ms with
  | nil =>
    intro headers p _ _
    refine ⟨[], rfl, rfl, ?_⟩
    intro k m hm
    simp at hm
  | cons jm ms ih =>
    intro headers p hidx hbound
    have hjm : jm.index = ((p : Nat) : Int) := by
      have h0 := hidx 0 jm (by simp)
      simpa using h0
    have hp : p < headers.length := by
      have h0 := hbound 0 (by simp)
      simpa using h0
    have hdm : decode_measure false headers jm = some (headers,
        { headerIdx := some p, voices := jm.voices.map decode_voice }) := by
      unfold decode_measure
      simp only [Bool.false_eq_true, if_false]
      rw [hjm, if_pos (by exact_mod_cast hp), pyResolve_natCast _ _ hp]
    obtain ⟨mms, hdec, hmlen, hmidx⟩ := ih headers (p + 1)
      (by
        intro k jm' hk
        have := hidx (k + 1) jm' (by simpa using hk)
        rw [this]
        congr 1
        omega)
      (by
        intro k hk
        have := hbound (k + 1) (by simpa using Nat.succ_lt_succ hk)
        omega)
    refine ⟨({ headerIdx := some p,
               voices := jm.voices.map decode_voice } : Measure) :: mms,
      ?_, ?_, ?_⟩
    · simp only [decode_measures, hdm, hdec]
    · simp [hmlen]
    · intro k m hm
      cases k with
      | zero =>
        simp only [List.getElem?_cons_zero] at hm
        injection hm with hm
        rw [← hm]
        simp
      | succ k' =>
        simp only [List.getElem?_cons_succ] at hm
        rw [hmidx k' m hm]
        congr 1
        omega

theorem decode_tracks_rest (jts : List JTrack) :
    ∀ (headers : List MeasureHeader) (acc : List Track), acc ≠ [] →
      (∀ jt ∈ jts, jt.measures.length = headers.length) →
      (∀ jt ∈ jts, ∀ (k : Nat) (jm : JMeasure),
        jt.measures[k]? = some jm → jm.index = (k : Int)) →
      ∃ ts, decode_tracks headers acc jts = some (headers, acc ++ ts) ∧
        ts.length = jts.length ∧
        ∀ t ∈ ts, t.measures.length = headers.length ∧
          ∀ (k : Nat) (m : Measure), t.measures[k]? = some m →
            m.headerIdx = some k := by
  induction jts with
  | nil =>
    intro headers acc _ _ _
    refine ⟨[], by simp [decode_tracks], rfl, ?_⟩
    intro t ht
    simp at ht
  | cons jt jts ih =>
    intro headers acc hne hlen hidx
    have hmem : jt ∈ jt :: jts := List.mem_cons_self jt jts
    obtain ⟨mms, hdec, hmlen, hmidx⟩ := decode_measures_rest jt.measures headers 0
      (by
        intro k jm hk
        have := hidx jt hmem k jm hk
        rw [this]
        congr 1
        omega)
      (by
        intro k hk
        have := hlen jt hmem
        omega)
    have hdt : decode_track false headers jt
        = some (headers, decoded_track jt mms) := by
      unfold decode_track
      rw [hdec]
    have htrm : (decoded_track jt mms).measures = mms := rfl
    have hemp : acc.isEmpty = false := by
      cases acc with
      | nil => exact absurd rfl hne
      | cons a as => rfl
    obtain ⟨ts, hts, htslen, htsprop⟩ := ih headers (acc ++ [decoded_track jt mms])
      (by simp)
      (fun jt' h => hlen jt' (List.mem_cons_of_mem jt h))
      (fun jt' h => hidx jt' (List.mem_cons_of_mem jt h))
    have hstep : decode_tracks headers acc (jt :: jts)
        = decode_tracks headers (acc ++ [decoded_track jt mms]) jts := by
      simp only [decode_tracks]
      rw [hemp, hdt]
    refine ⟨decoded_track jt mms :: ts, ?_, ?_, ?_⟩
    · rw [hstep, hts]
      simp
    · simp [htslen]
    · intro t ht
      rcases List.mem_cons.mp ht with heq | hmem'
      · subst heq
        constructor
        · rw [htrm, hmlen]
          exact hlen jt hmem
        · intro k m hm
          rw [htrm] at hm
          have := hmidx k m hm
          rw [this]
          congr 1
          omega
      · exact htsprop t hmem'

/-- C9 — on interchange (JSON) decode of a well-formed tree (every
track has the same number of measures as the first and each measure
node's stored index equals its position), only the first track's
measures create new MeasureHeader objects appended to
`song.measureHeaders` (their count equals the first track's measure
count, `n`), and every measure of every track — the first track's and
every subsequent track's alike — is attached to the header at its
matching index, so header data is never duplicated and the 1:1
header/measure correspondence holds. -/
theorem c9_json_decode_header_sharing (j : JSong) (n : Nat)
    (hlen : ∀ jt ∈ j.tracks, jt.measures.length = n)
    (hidx : ∀ jt ∈ j.tracks, ∀ (k : Nat) (jm : JMeasure),
      jt.measures[k]? = some jm → jm.index = (k : Int)) :
    ∃ s, json_to_song j = some s ∧
      (j.tracks ≠ [] → s.measureHeaders.length = n) ∧
      s.tracks.length = j.tracks.length ∧
      ∀ t ∈ s.tracks, t.measures.length = s.measureHeaders.length ∧
        ∀ (k : Nat) (m : Measure), t.measures[k]? = some m →
          m.headerIdx = some k := by
  cases hjt : j.tracks with
  | nil =>
    refine ⟨{ blank_song j.metadata.title with
                artist := j.metadata.artist, album := j.metadata.album,
                author := j.metadata.author, copyright := j.metadata.copyright,
                transcriber := j.metadata.transcriber,
                instructions := j.metadata.instructions,
                comments := j.metadata.comments, tempo := j.metadata.tempo,
                measureHeaders := [], tracks := [] }, ?_, ?_, ?_, ?_⟩
    · simp only [json_to_song]
      rw [hjt]
      rfl
    · intro hne
      exact absurd rfl hne
    · rfl
    · intro t ht
      simp at ht
  | cons jt0 rest =>
    obtain ⟨hs0, mms0, hdec0, hlen0, hmlen0, hidx0⟩ :=
      decode_measures_first jt0.measures []
    have hjt0mem : jt0 ∈ j.tracks := by
      rw [hjt]; exact List.mem_cons_self _ _
    have hn0 : jt0.measures.length = n := hlen jt0 hjt0mem
    have hhs0 : hs0.length = n := by
      rw [hlen0]
      simpa using hn0
    have hdt0 : decode_track true [] jt0 = some (hs0, decoded_track jt0 mms0) := by
      unfold decode_track
      rw [hdec0]
    obtain ⟨ts, hts, htslen, htsprop⟩ :=
      decode_tracks_rest rest hs0 [decoded_track jt0 mms0]
        (by simp)
        (by
          intro jt' h
          rw [hhs0]
          exact hlen jt' (by rw [hjt]; exact List.mem_cons_of_mem _ h))
        (by
          intro jt' h
          exact hidx jt' (by rw [hjt]; exact List.mem_cons_of_mem _ h))
    have hdts : decode_tracks [] [] j.tracks
        = some (hs0, decoded_track jt0 mms0 :: ts) := by
      rw [hjt]
      simp only [decode_tracks, List.isEmpty_nil, hdt0, List.nil_append, hts]
      rfl
    refine ⟨{ blank_song j.metadata.title with
                artist := j.metadata.artist, album := j.metadata.album,
                author := j.metadata.author, copyright := j.metadata.copyright,
                transcriber := j.metadata.transcriber,
                instructions := j.metadata.instructions,
                comments := j.metadata.comments, tempo := j.metadata.tempo,
                measureHeaders := hs0,
                tracks := decoded_track jt0 mms0 :: ts }, ?_, ?_, ?_, ?_⟩
    · simp only [json_to_song]
      rw [hdts]
    · intro _
      exact hhs0
    · simp [htslen]
    · intro t ht
      rcases List.mem_cons.mp ht with heq | hmem'
      · subst heq
        constructor
        · show (decoded_track jt0 mms0).measures.length = hs0.length
          have hm : (decoded_track jt0 mms0).measures = mms0 := rfl
          rw [hm, hmlen0, hn0, hhs0]
        · intro k m hm
          have hm' : mms0[k]? = some m := hm
          have := hidx0 k m hm'
          rw [this]
          congr 1
          simp
      · exact htsprop t hmem'

/-- A well-formed two-track, two-measure interchange tree (positional
indices 0 and 1 on both tracks). -/
def c9_json : JSong :=
  { metadata := ⟨"t", "a", "", "", "", "", "", "", 120⟩,
    tracks := [
      { name := "t1", is_percussion := false,
        channel := ⟨0, 100, 0, 0, 0, 0, 0⟩, strings := [⟨1, 64⟩],
        measures := [⟨0, []⟩, ⟨1, []⟩] },
      { name := "t2", is_percussion := false,
        channel := ⟨0, 100, 0, 0, 0, 0, 0⟩, strings := [⟨1, 64⟩],
        measures := [⟨0, []⟩, ⟨1, []⟩] }] }

/-- C9 witness — the decode of the concrete two-track tree shares its
two headers across both tracks. -/
theorem c9_json_decode_header_sharing_witness :
    ∃ s, json_to_song c9_json = some s ∧
      (c9_json.tracks ≠ [] → s.measureHeaders.length = 2) ∧
      s.tracks.length = c9_json.tracks.length ∧
      ∀ t ∈ s.tracks, t.measures.length = s.measureHeaders.length ∧
        ∀ (k : Nat) (m : Measure), t.measures[k]? = some m →
          m.headerIdx = some k := by
  refine c9_json_decode_header_sharing c9_json 2 (by decide) ?_
  intro jt hmem k jm h
  have hms : jt.measures = [⟨0, []⟩, ⟨1, []⟩] := by
    have h2 : jt = c9_json.tracks[0] ∨ jt = c9_json.tracks[1] := by
      simpa [c9_json] using hmem
    rcases h2 with h2 | h2 <;> (subst h2; rfl)
  rw [hms] at h
  match k with
  | 0 =>
    injection h with h
    rw [← h]
    decide
  | 1 =>
    injection h with h
    rw [← h]
    decide
  | (k + 2) =>
    simp at h

end GP
